import Mathlib

/-!
Verification of the gap buffer from `src/arrays/gap_buffer.rs`.

The Rust struct `GapBuffer { buffer: Vec<char>, cursor: usize, gap_end: usize }`
is embedded as a Lean structure over `List Char` and `Nat`.  `usize` values are
modelled as `Nat`: none of the arithmetic in the source can reach `2^64` when
the invariants hold (the only subtractions are guarded, and the no-underflow
facts are proved separately as part of the safety claim, where every
potentially panicking operation is given an explicit `Option`-valued variant).
Rust's `saturating_sub` is Nat truncated subtraction, `saturating_add` is
plain `Nat` addition.  `Vec::len` is `List.length`; the spec's `capacity` is
the storage length.
-/

set_option maxRecDepth 100000

namespace GapRepo

/-- The Rust constant `MIN_BUF_SIZE`. -/
def MIN_BUF_SIZE : Nat := 1024

/-- The Rust constant `SHRINK_THRESHOLD` (set equal to `MIN_BUF_SIZE`). -/
def SHRINK_THRESHOLD : Nat := MIN_BUF_SIZE

/-- The `GapBuffer` struct: storage, cursor (first gap slot), gap_end (one past
the last gap slot). -/
structure GapBuffer where
  buffer : List Char
  cursor : Nat
  gap_end : Nat
deriving DecidableEq, Repr

namespace GapBuffer

/-- `GapBuffer::used_size`: `self.cursor + (self.buffer.len() - self.gap_end)`. -/
def used_size (s : GapBuffer) : Nat :=
  s.cursor + (s.buffer.length - s.gap_end)

/-- `GapBuffer::new`: storage of `max(capacity, MIN_BUF_SIZE)` filled with
`'\0'`, cursor at 0, gap covering the whole storage. -/
def new (capacity : Nat) : GapBuffer :=
  let init_size := max capacity MIN_BUF_SIZE
  { buffer := List.replicate init_size '\x00', cursor := 0, gap_end := init_size }

/-- Rust `slice::copy_within(src_start..src_end, dest)`: copy the elements at
`[src_start, src_end)` over the elements starting at `dest`, in place.  Total
version; in-bounds behaviour (the only behaviour the source relies on) agrees
with Rust, and the bounds checks that Rust performs at runtime are made
explicit in the `Option`-valued variants below. -/
def copyWithin (l : List Char) (src_start src_end dest : Nat) : List Char :=
  l.take dest ++ (l.drop src_start).take (src_end - src_start)
    ++ l.drop (dest + (src_end - src_start))

/-- `GapBuffer::move_left`: guard `distance == 0 || distance > self.cursor`,
then `copy_within(cursor-distance..cursor, gap_end-distance)` and decrement
both indices by `distance`. -/
def move_left (s : GapBuffer) (distance : Nat) : GapBuffer :=
  if distance = 0 ∨ s.cursor < distance then s
  else
    { buffer := copyWithin s.buffer (s.cursor - distance) s.cursor (s.gap_end - distance)
      cursor := s.cursor - distance
      gap_end := s.gap_end - distance }

/-- `GapBuffer::move_right`: guard `distance == 0 || cursor + distance > gap_end`,
then `copy_within(cursor..gap_end, cursor + distance)` and increment both
indices by `distance`.  (Note: the source copies the gap region, exactly as
written here.) -/
def move_right (s : GapBuffer) (distance : Nat) : GapBuffer :=
  if distance = 0 ∨ s.gap_end < s.cursor + distance then s
  else
    { buffer := copyWithin s.buffer s.cursor s.gap_end (s.cursor + distance)
      cursor := s.cursor + distance
      gap_end := s.gap_end + distance }

/-- `GapBuffer::move_cursor`: clamp to `used_size`, then move left or right. -/
def move_cursor (s : GapBuffer) (pos : Nat) : GapBuffer :=
  let max_pos := s.used_size
  let new_pos := min pos max_pos
  if new_pos < s.cursor then s.move_left (s.cursor - new_pos)
  else if s.cursor < new_pos then s.move_right (new_pos - s.cursor)
  else s

/-- `GapBuffer::resize_buffer`: new storage = `[0, cursor)` ++ filler of
`new_size.saturating_sub(used_size)` ++ `[gap_end, len)`;
`gap_end = min(cursor + (new_size - used_size), new_size)`.  The unguarded
usize subtraction `new_size - used_size` is modelled by truncated `Nat`
subtraction; the no-underflow fact for every internal call site is proved
with the safety claim. -/
def resize_buffer (s : GapBuffer) (new_size : Nat) : GapBuffer :=
  let used := s.used_size
  { buffer := s.buffer.take s.cursor ++ List.replicate (new_size - used) '\x00'
      ++ s.buffer.drop s.gap_end
    cursor := s.cursor
    gap_end := min (s.cursor + (new_size - used)) new_size }

/-- `GapBuffer::grow`: resize to `buffer.len() * 2`. -/
def grow (s : GapBuffer) : GapBuffer :=
  s.resize_buffer (s.buffer.length * 2)

/-- `GapBuffer::shrink`: target `max(used_size * 2, MIN_BUF_SIZE)`; resize only
if the target is strictly below the current length. -/
def shrink (s : GapBuffer) : GapBuffer :=
  let used := s.used_size
  let new_size := max (used * 2) MIN_BUF_SIZE
  if new_size < s.buffer.length then s.resize_buffer new_size else s

/-- `GapBuffer::insert`: grow when `cursor == gap_end`, then write at
`storage[cursor]` and increment the cursor. -/
def insert (s : GapBuffer) (c : Char) : GapBuffer :=
  let t := if s.cursor = s.gap_end then s.grow else s
  { t with buffer := t.buffer.set t.cursor c, cursor := t.cursor + 1 }

/-- The first statement of `GapBuffer::delete`: extend `gap_end` by one when
`cursor < gap_end && gap_end < buffer.len()`. -/
def deleteStep (s : GapBuffer) : GapBuffer :=
  if s.cursor < s.gap_end ∧ s.gap_end < s.buffer.length then
    { s with gap_end := s.gap_end + 1 }
  else s

/-- `GapBuffer::delete`: the conditional `gap_end` extension, then the shrink
check `used_size < len / 4 && len > SHRINK_THRESHOLD`. -/
def delete (s : GapBuffer) : GapBuffer :=
  let t := s.deleteStep
  if t.used_size < t.buffer.length / 4 ∧ SHRINK_THRESHOLD < t.buffer.length then
    t.shrink
  else t

/-- The body of `GapBuffer::backspace`'s `cursor > 0` branch before the shrink
check: `cursor.saturating_sub(1)` and, if `gap_end < len`, `gap_end + 1`. -/
def backspaceStep (s : GapBuffer) : GapBuffer :=
  { s with
    cursor := s.cursor - 1
    gap_end := if s.gap_end < s.buffer.length then s.gap_end + 1 else s.gap_end }

/-- `GapBuffer::backspace`: everything guarded by `cursor > 0`; then the same
shrink check as `delete`. -/
def backspace (s : GapBuffer) : GapBuffer :=
  if 0 < s.cursor then
    let t := s.backspaceStep
    if t.used_size < t.buffer.length / 4 ∧ SHRINK_THRESHOLD < t.buffer.length then
      t.shrink
    else t
  else s

/-- `GapBuffer::extract_text`: the characters of `[0, cursor)` followed by the
characters of `[gap_end, len)` (returned as a `List Char`; the Rust `String`
is just this character sequence). -/
def extract_text (s : GapBuffer) : List Char :=
  s.buffer.take s.cursor ++ s.buffer.drop s.gap_end

end GapBuffer

/-- One public operation of the `GapBuffer` interface. -/
inductive Op where
  | ins : Char → Op
  | move : Nat → Op
  | del : Op
  | back : Op
deriving DecidableEq, Repr

/-- Apply one public operation. -/
def apply1 (s : GapBuffer) : Op → GapBuffer
  | .ins c => s.insert c
  | .move n => s.move_cursor n
  | .del => s.delete
  | .back => s.backspace

/-- Apply a sequence of public operations, left to right. -/
def run (ops : List Op) (s : GapBuffer) : GapBuffer :=
  ops.foldl apply1 s

/-- The inductive state invariant: invariant I1 (`cursor ≤ gap_end ≤ capacity`;
`0 ≤ cursor` is automatic over `Nat`) together with the capacity floor
`MIN_BUF_SIZE ≤ capacity` that every buffer produced by `new` maintains. -/
def Inv (s : GapBuffer) : Prop :=
  s.cursor ≤ s.gap_end ∧ s.gap_end ≤ s.buffer.length ∧ MIN_BUF_SIZE ≤ s.buffer.length

instance (s : GapBuffer) : Decidable (Inv s) := by
  unfold Inv; infer_instance

namespace GapBuffer

/-- Checked `copy_within`: `none` exactly when Rust's
`slice::copy_within(a..b, d)` would panic (`a > b`, `b > len`, or
`d + (b - a) > len`). -/
def copyWithinChecked (l : List Char) (a b d : Nat) : Option (List Char) :=
  if a ≤ b ∧ b ≤ l.length ∧ d + (b - a) ≤ l.length then
    some (copyWithin l a b d)
  else none

/-- Checked resize: `none` exactly when the unguarded usize subtraction
`new_size - used_size` in the source would underflow. -/
def resizeChecked (s : GapBuffer) (new_size : Nat) : Option GapBuffer :=
  if s.used_size ≤ new_size then some (s.resize_buffer new_size) else none

/-- Checked grow. -/
def growChecked (s : GapBuffer) : Option GapBuffer :=
  s.resizeChecked (s.buffer.length * 2)

/-- Checked shrink. -/
def shrinkChecked (s : GapBuffer) : Option GapBuffer :=
  let used := s.used_size
  let new_size := max (used * 2) MIN_BUF_SIZE
  if new_size < s.buffer.length then s.resizeChecked new_size else some s

/-- Checked `move_left`: also checks the usize subtraction
`gap_end - distance`. -/
def moveLeftChecked (s : GapBuffer) (distance : Nat) : Option GapBuffer :=
  if distance = 0 ∨ s.cursor < distance then some s
  else if distance ≤ s.gap_end then
    (copyWithinChecked s.buffer (s.cursor - distance) s.cursor
        (s.gap_end - distance)).map
      fun b => ⟨b, s.cursor - distance, s.gap_end - distance⟩
  else none

/-- Checked `move_right`. -/
def moveRightChecked (s : GapBuffer) (distance : Nat) : Option GapBuffer :=
  if distance = 0 ∨ s.gap_end < s.cursor + distance then some s
  else
    (copyWithinChecked s.buffer s.cursor s.gap_end (s.cursor + distance)).map
      fun b => ⟨b, s.cursor + distance, s.gap_end + distance⟩

/-- Checked `move_cursor`. -/
def moveCursorChecked (s : GapBuffer) (pos : Nat) : Option GapBuffer :=
  let max_pos := s.used_size
  let new_pos := min pos max_pos
  if new_pos < s.cursor then s.moveLeftChecked (s.cursor - new_pos)
  else if s.cursor < new_pos then s.moveRightChecked (new_pos - s.cursor)
  else some s

/-- Checked `insert`: `none` when the write `storage[cursor] = c` would be out
of bounds. -/
def insertChecked (s : GapBuffer) (c : Char) : Option GapBuffer :=
  (if s.cursor = s.gap_end then s.growChecked else some s).bind fun t =>
    if t.cursor < t.buffer.length then
      some { t with buffer := t.buffer.set t.cursor c, cursor := t.cursor + 1 }
    else none

/-- Checked `delete`. -/
def deleteChecked (s : GapBuffer) : Option GapBuffer :=
  let t := s.deleteStep
  if t.used_size < t.buffer.length / 4 ∧ SHRINK_THRESHOLD < t.buffer.length then
    t.shrinkChecked
  else some t

/-- Checked `backspace`. -/
def backspaceChecked (s : GapBuffer) : Option GapBuffer :=
  if 0 < s.cursor then
    let t := s.backspaceStep
    if t.used_size < t.buffer.length / 4 ∧
        SHRINK_THRESHOLD < t.buffer.length then
      t.shrinkChecked
    else some t
  else some s

end GapBuffer

namespace GapBuffer

theorem MIN_pos : 1 ≤ MIN_BUF_SIZE := by decide

theorem cursor_le_used (s : GapBuffer) : s.cursor ≤ s.used_size :=
  Nat.le_add_right _ _

theorem used_le_length {s : GapBuffer} (h1 : s.cursor ≤ s.gap_end)
    (h2 : s.gap_end ≤ s.buffer.length) : s.used_size ≤ s.buffer.length := by
  unfold used_size
  omega

theorem length_copyWithin {l : List Char} {a b d : Nat}
    (hab : a ≤ b) (hb : b ≤ l.length) (hd : d + (b - a) ≤ l.length) :
    (copyWithin l a b d).length = l.length := by
  unfold copyWithin
  simp only [List.length_append, List.length_take, List.length_drop]
  omega

@[simp] theorem resize_buffer_buffer (s : GapBuffer) (k : Nat) :
    (s.resize_buffer k).buffer
      = s.buffer.take s.cursor ++ List.replicate (k - s.used_size) '\x00'
          ++ s.buffer.drop s.gap_end := rfl

@[simp] theorem resize_buffer_cursor (s : GapBuffer) (k : Nat) :
    (s.resize_buffer k).cursor = s.cursor := rfl

@[simp] theorem resize_buffer_gap_end (s : GapBuffer) (k : Nat) :
    (s.resize_buffer k).gap_end
      = min (s.cursor + (k - s.used_size)) k := rfl

theorem resize_gap_end' {s : GapBuffer} {k : Nat} (hk : s.used_size ≤ k) :
    (s.resize_buffer k).gap_end = s.cursor + (k - s.used_size) := by
  have hc := s.cursor_le_used
  rw [resize_buffer_gap_end]
  omega

theorem resize_length {s : GapBuffer} {k : Nat} (h1 : s.cursor ≤ s.gap_end)
    (h2 : s.gap_end ≤ s.buffer.length) (hk : s.used_size ≤ k) :
    (s.resize_buffer k).buffer.length = k := by
  rw [resize_buffer_buffer]
  simp only [List.length_append, List.length_take, List.length_replicate,
    List.length_drop]
  unfold used_size at *
  omega

theorem resize_used {s : GapBuffer} {k : Nat} (h1 : s.cursor ≤ s.gap_end)
    (h2 : s.gap_end ≤ s.buffer.length) (hk : s.used_size ≤ k) :
    (s.resize_buffer k).used_size = s.used_size := by
  have hl := resize_length h1 h2 hk
  have hg := resize_gap_end' hk
  unfold used_size at hk hg ⊢
  rw [resize_buffer_cursor]
  omega

theorem resize_textBefore {s : GapBuffer} {k : Nat} (h1 : s.cursor ≤ s.gap_end)
    (h2 : s.gap_end ≤ s.buffer.length) :
    (s.resize_buffer k).buffer.take (s.resize_buffer k).cursor
      = s.buffer.take s.cursor := by
  have hcl : s.cursor ≤ s.buffer.length := le_trans h1 h2
  rw [resize_buffer_buffer, resize_buffer_cursor]
  rw [List.take_append_of_le_length
      (by simp only [List.length_append, List.length_take,
        List.length_replicate]; omega),
    List.take_append_of_le_length
      (by simp only [List.length_take]; omega),
    List.take_take, Nat.min_self]

theorem resize_textAfter {s : GapBuffer} {k : Nat} (h1 : s.cursor ≤ s.gap_end)
    (h2 : s.gap_end ≤ s.buffer.length) (hk : s.used_size ≤ k) :
    (s.resize_buffer k).buffer.drop (s.resize_buffer k).gap_end
      = s.buffer.drop s.gap_end := by
  have hcl : s.cursor ≤ s.buffer.length := le_trans h1 h2
  rw [resize_buffer_buffer, resize_gap_end' hk]
  refine List.drop_left' ?_
  simp only [List.length_append, List.length_take, List.length_replicate]
  unfold used_size at *
  omega

theorem resize_extract {s : GapBuffer} {k : Nat} (h1 : s.cursor ≤ s.gap_end)
    (h2 : s.gap_end ≤ s.buffer.length) (hk : s.used_size ≤ k) :
    (s.resize_buffer k).extract_text = s.extract_text := by
  unfold extract_text
  rw [resize_textBefore h1 h2, resize_textAfter h1 h2 hk]

theorem inv_resize {s : GapBuffer} {k : Nat} (h : Inv s)
    (hk : s.used_size ≤ k) (hmin : MIN_BUF_SIZE ≤ k) :
    Inv (s.resize_buffer k) := by
  obtain ⟨h1, h2, h3⟩ := h
  have hc := s.cursor_le_used
  have hl := resize_length h1 h2 hk
  have hg := resize_gap_end' hk
  unfold used_size at hk hc hg
  refine ⟨?_, ?_, ?_⟩
  · rw [resize_buffer_cursor, hg]
    omega
  · rw [hg, hl]
    omega
  · rw [hl]
    omega

theorem inv_grow {s : GapBuffer} (h : Inv s) : Inv s.grow := by
  obtain ⟨h1, h2, h3⟩ := h
  have hu := used_le_length h1 h2
  exact inv_resize ⟨h1, h2, h3⟩ (by omega) (by omega)

theorem inv_shrink {s : GapBuffer} (h : Inv s) : Inv s.shrink := by
  unfold shrink
  dsimp only
  split
  · exact inv_resize h (by omega) (by omega)
  · exact h

theorem grow_buffer_length {s : GapBuffer} (h1 : s.cursor ≤ s.gap_end)
    (h2 : s.gap_end ≤ s.buffer.length) :
    s.grow.buffer.length = s.buffer.length * 2 := by
  have hu := used_le_length h1 h2
  exact resize_length h1 h2 (by omega)

theorem inv_insert {s : GapBuffer} (h : Inv s) (c : Char) :
    Inv (s.insert c) := by
  obtain ⟨h1, h2, h3⟩ := h
  have hu := used_le_length h1 h2
  unfold insert
  dsimp only
  split
  · next heq =>
    have hk : s.used_size ≤ s.buffer.length * 2 := by omega
    have hl := grow_buffer_length h1 h2
    have hg2 : s.grow.gap_end
        = s.cursor + (s.buffer.length * 2 - s.used_size) := resize_gap_end' hk
    have hcg : s.grow.cursor = s.cursor := rfl
    have hone := MIN_pos
    refine ⟨?_, ?_, ?_⟩ <;> dsimp only
    · rw [hcg, hg2]
      unfold used_size at *
      omega
    · simp only [List.length_set]
      rw [hg2, hl]
      unfold used_size at *
      omega
    · simp only [List.length_set]
      rw [hl]
      omega
  · next hne =>
    have hlt : s.cursor < s.gap_end := lt_of_le_of_ne h1 hne
    refine ⟨?_, ?_, ?_⟩ <;> dsimp only
    · omega
    · simp only [List.length_set]
      omega
    · simp only [List.length_set]
      omega

theorem inv_deleteStep {s : GapBuffer} (h : Inv s) : Inv s.deleteStep := by
  obtain ⟨h1, h2, h3⟩ := h
  unfold deleteStep
  split
  · next hcond => exact ⟨by dsimp only; omega, by dsimp only; omega,
      by dsimp only; omega⟩
  · exact ⟨h1, h2, h3⟩

theorem deleteStep_buffer (s : GapBuffer) : s.deleteStep.buffer = s.buffer := by
  unfold deleteStep
  split <;> rfl

theorem inv_delete {s : GapBuffer} (h : Inv s) : Inv s.delete := by
  have ht := inv_deleteStep h
  unfold delete
  dsimp only
  split
  · exact inv_shrink ht
  · exact ht

theorem inv_backspaceStep {s : GapBuffer} (h : Inv s) : Inv s.backspaceStep := by
  obtain ⟨h1, h2, h3⟩ := h
  unfold backspaceStep
  refine ⟨?_, ?_, ?_⟩ <;> dsimp only <;> first | (split <;> omega) | omega

theorem backspaceStep_buffer (s : GapBuffer) :
    s.backspaceStep.buffer = s.buffer := rfl

theorem inv_backspace {s : GapBuffer} (h : Inv s) : Inv s.backspace := by
  have ht := inv_backspaceStep h
  unfold backspace
  dsimp only
  split
  · split
    · exact inv_shrink ht
    · exact ht
  · exact h

theorem inv_move_left {s : GapBuffer} (h : Inv s) (d : Nat) :
    Inv (s.move_left d) := by
  obtain ⟨h1, h2, h3⟩ := h
  unfold move_left
  split
  · exact ⟨h1, h2, h3⟩
  · next hguard =>
    have hd : d ≤ s.cursor := by omega
    have hlen := length_copyWithin (l := s.buffer) (a := s.cursor - d)
      (b := s.cursor) (d := s.gap_end - d) (by omega) (by omega) (by omega)
    refine ⟨?_, ?_, ?_⟩ <;> dsimp only <;> omega

theorem inv_move_right {s : GapBuffer} (h : Inv s) {d : Nat}
    (hd : s.gap_end + d ≤ s.buffer.length) :
    Inv (s.move_right d) := by
  obtain ⟨h1, h2, h3⟩ := h
  unfold move_right
  split
  · exact ⟨h1, h2, h3⟩
  · next hguard =>
    have hcd : s.cursor + d ≤ s.gap_end := by omega
    have hlen := length_copyWithin (l := s.buffer) (a := s.cursor)
      (b := s.gap_end) (d := s.cursor + d) h1 h2 (by omega)
    refine ⟨?_, ?_, ?_⟩ <;> dsimp only <;> omega

theorem inv_move_cursor {s : GapBuffer} (h : Inv s) (pos : Nat) :
    Inv (s.move_cursor pos) := by
  unfold move_cursor
  dsimp only
  split
  · exact inv_move_left h _
  · split
    · next hng hlt =>
      refine inv_move_right h ?_
      obtain ⟨h1, h2, h3⟩ := h
      have hmin : min pos s.used_size ≤ s.used_size := Nat.min_le_right _ _
      unfold used_size at *
      omega
    · exact h

theorem inv_apply1 {s : GapBuffer} (h : Inv s) (op : Op) :
    Inv (apply1 s op) := by
  cases op with
  | ins c => exact inv_insert h c
  | move n => exact inv_move_cursor h n
  | del => exact inv_delete h
  | back => exact inv_backspace h

theorem inv_new (c : Nat) : Inv (new c) := by
  unfold Inv new
  simp only [List.length_replicate]
  exact ⟨Nat.zero_le _, le_refl _, Nat.le_max_right _ _⟩

theorem inv_run (ops : List Op) (s : GapBuffer) (h : Inv s) :
    Inv (run ops s) := by
  induction ops generalizing s with
  | nil => exact h
  | cons op rest ih => exact ih _ (inv_apply1 h op)

theorem take_succ_set {l : List Char} {i : Nat} (c : Char) (h : i < l.length) :
    (l.set i c).take (i + 1) = l.take i ++ [c] := by
  rw [List.set_eq_take_cons_drop c h, List.take_append_eq_append_take,
    List.take_take]
  have hmin : min (i + 1) i = i := by omega
  have hlen : (l.take i).length = i := by simp; omega
  rw [hmin, hlen]
  have hone : i + 1 - i = 1 := by omega
  rw [hone]
  rfl

theorem write_extract {t : GapBuffer} (c : Char)
    (hlt : t.cursor < t.gap_end) (h2 : t.gap_end ≤ t.buffer.length) :
    extract_text ⟨t.buffer.set t.cursor c, t.cursor + 1, t.gap_end⟩
      = t.buffer.take t.cursor ++ c :: t.buffer.drop t.gap_end := by
  unfold extract_text
  dsimp only
  rw [take_succ_set c (by omega), List.drop_set_of_lt _ _ hlt,
    List.append_assoc, List.singleton_append]

theorem grow_textBefore {s : GapBuffer} (h1 : s.cursor ≤ s.gap_end)
    (h2 : s.gap_end ≤ s.buffer.length) :
    s.grow.buffer.take s.grow.cursor = s.buffer.take s.cursor :=
  resize_textBefore h1 h2

theorem grow_textAfter {s : GapBuffer} (h1 : s.cursor ≤ s.gap_end)
    (h2 : s.gap_end ≤ s.buffer.length) :
    s.grow.buffer.drop s.grow.gap_end = s.buffer.drop s.gap_end :=
  resize_textAfter h1 h2 (by have := used_le_length h1 h2; omega)

theorem run_cons (op : Op) (ops : List Op) (s : GapBuffer) :
    run (op :: ops) s = run ops (apply1 s op) := rfl

theorem run_append (l₁ l₂ : List Op) (s : GapBuffer) :
    run (l₁ ++ l₂) s = run l₂ (run l₁ s) := by
  unfold run
  exact List.foldl_append ..

/-- One insert into a buffer whose content is `j` copies of `c` followed by a
completely unused tail of `r ≥ 1` filler slots. -/
theorem insert_replicate_step (c : Char) (j r : Nat) (hr : 1 ≤ r) :
    insert ⟨List.replicate j c ++ List.replicate r '\x00', j, j + r⟩ c
      = ⟨List.replicate (j + 1) c ++ List.replicate (r - 1) '\x00',
          j + 1, j + r⟩ := by
  have hne : ¬ ((⟨List.replicate j c ++ List.replicate r '\x00', j, j + r⟩ :
      GapBuffer).cursor
        = (⟨List.replicate j c ++ List.replicate r '\x00', j, j + r⟩ :
      GapBuffer).gap_end) := by
    dsimp only
    omega
  unfold insert
  rw [if_neg hne]
  dsimp only
  congr 1
  rw [List.set_append_right _ _ (by simp), List.length_replicate,
    Nat.sub_self]
  cases r with
  | zero => omega
  | succ r' =>
    rw [List.replicate_succ, List.set_cons_zero, List.replicate_succ' j c,
      List.append_assoc, List.singleton_append]
    rfl

/-- Running `k ≤ r` inserts of `c` on such a buffer appends `k` copies of `c`
and consumes `k` filler slots, never growing. -/
theorem run_replicate_ins (c : Char) :
    ∀ (k j r : Nat), k ≤ r →
      run (List.replicate k (Op.ins c))
          ⟨List.replicate j c ++ List.replicate r '\x00', j, j + r⟩
        = ⟨List.replicate (j + k) c ++ List.replicate (r - k) '\x00',
            j + k, j + r⟩
  | 0, j, r, _ => by simp [run]
  | k+1, j, r, hk => by
    rw [List.replicate_succ, run_cons]
    have happ : apply1 ⟨List.replicate j c ++ List.replicate r '\x00', j,
        j + r⟩ (Op.ins c)
        = insert ⟨List.replicate j c ++ List.replicate r '\x00', j, j + r⟩
            c := rfl
    rw [happ, insert_replicate_step c j r (by omega)]
    have hrec := run_replicate_ins c k (j + 1) (r - 1) (by omega)
    have e3 : j + 1 + (r - 1) = j + r := by omega
    rw [e3] at hrec
    rw [hrec]
    have e1 : j + 1 + k = j + (k + 1) := by omega
    have e2 : r - 1 - k = r - (k + 1) := by omega
    rw [e1, e2]

theorem shrinkChecked_eq (s : GapBuffer) : s.shrinkChecked = some s.shrink := by
  unfold shrinkChecked shrink resizeChecked
  dsimp only
  split
  · rw [if_pos (by omega)]
  · rfl

theorem growChecked_eq {s : GapBuffer} (h1 : s.cursor ≤ s.gap_end)
    (h2 : s.gap_end ≤ s.buffer.length) : s.growChecked = some s.grow := by
  have hu := used_le_length h1 h2
  unfold growChecked resizeChecked grow
  rw [if_pos (by omega)]

theorem deleteChecked_eq (s : GapBuffer) : s.deleteChecked = some s.delete := by
  unfold deleteChecked delete
  dsimp only
  split
  · exact shrinkChecked_eq _
  · rfl

theorem backspaceChecked_eq (s : GapBuffer) :
    s.backspaceChecked = some s.backspace := by
  unfold backspaceChecked backspace
  dsimp only
  split
  · split
    · exact shrinkChecked_eq _
    · rfl
  · rfl

theorem moveLeftChecked_eq {s : GapBuffer} (h1 : s.cursor ≤ s.gap_end)
    (h2 : s.gap_end ≤ s.buffer.length) (d : Nat) :
    s.moveLeftChecked d = some (s.move_left d) := by
  unfold moveLeftChecked move_left
  by_cases hg : d = 0 ∨ s.cursor < d
  · rw [if_pos hg, if_pos hg]
  · rw [if_neg hg, if_neg hg, if_pos (by omega)]
    unfold copyWithinChecked
    rw [if_pos (by refine ⟨by omega, by omega, by omega⟩)]
    rfl

theorem moveRightChecked_eq {s : GapBuffer} (h1 : s.cursor ≤ s.gap_end)
    (h2 : s.gap_end ≤ s.buffer.length) {d : Nat}
    (hd : s.gap_end + d ≤ s.buffer.length) :
    s.moveRightChecked d = some (s.move_right d) := by
  unfold moveRightChecked move_right
  by_cases hg : d = 0 ∨ s.gap_end < s.cursor + d
  · rw [if_pos hg, if_pos hg]
  · rw [if_neg hg, if_neg hg]
    unfold copyWithinChecked
    rw [if_pos (by refine ⟨h1, h2, by omega⟩)]
    rfl

theorem moveCursorChecked_eq {s : GapBuffer} (h1 : s.cursor ≤ s.gap_end)
    (h2 : s.gap_end ≤ s.buffer.length) (pos : Nat) :
    s.moveCursorChecked pos = some (s.move_cursor pos) := by
  unfold moveCursorChecked move_cursor
  dsimp only
  split
  · exact moveLeftChecked_eq h1 h2 _
  · split
    · next hng hlt =>
      refine moveRightChecked_eq h1 h2 ?_
      have hmin : min pos s.used_size ≤ s.used_size := Nat.min_le_right _ _
      unfold used_size at *
      omega
    · rfl

theorem insertChecked_eq {s : GapBuffer} (h1 : s.cursor ≤ s.gap_end)
    (h2 : s.gap_end ≤ s.buffer.length) (h3 : 1 ≤ s.buffer.length) (c : Char) :
    s.insertChecked c = some (s.insert c) := by
  have hu := used_le_length h1 h2
  unfold insertChecked insert
  by_cases heq : s.cursor = s.gap_end
  · rw [if_pos heq, if_pos heq, growChecked_eq h1 h2]
    dsimp only [Option.bind]
    have hl := grow_buffer_length h1 h2
    have hcg : s.grow.cursor = s.cursor := rfl
    rw [if_pos (by rw [hl, hcg]; omega)]
  · rw [if_neg heq, if_neg heq]
    dsimp only [Option.bind]
    have hlt : s.cursor < s.gap_end := lt_of_le_of_ne h1 heq
    rw [if_pos (by omega)]

theorem deleteStep_bounds {s : GapBuffer} (h1 : s.cursor ≤ s.gap_end)
    (h2 : s.gap_end ≤ s.buffer.length) :
    s.deleteStep.cursor ≤ s.deleteStep.gap_end ∧
    s.deleteStep.gap_end ≤ s.deleteStep.buffer.length := by
  unfold deleteStep
  split
  · next hcond => exact ⟨by dsimp only; omega, by dsimp only; omega⟩
  · exact ⟨h1, h2⟩

theorem backspaceStep_bounds {s : GapBuffer} (h1 : s.cursor ≤ s.gap_end)
    (h2 : s.gap_end ≤ s.buffer.length) :
    s.backspaceStep.cursor ≤ s.backspaceStep.gap_end ∧
    s.backspaceStep.gap_end ≤ s.backspaceStep.buffer.length := by
  unfold backspaceStep
  constructor <;> dsimp only <;> split <;> omega

theorem shrink_length_of_trigger {t : GapBuffer} (h1 : t.cursor ≤ t.gap_end)
    (h2 : t.gap_end ≤ t.buffer.length)
    (htrig : t.used_size < t.buffer.length / 4 ∧
      SHRINK_THRESHOLD < t.buffer.length) :
    t.shrink.buffer.length = max (t.used_size * 2) MIN_BUF_SIZE ∧
    t.shrink.buffer.length < t.buffer.length ∧
    MIN_BUF_SIZE ≤ t.shrink.buffer.length := by
  have hTS : SHRINK_THRESHOLD = MIN_BUF_SIZE := rfl
  rw [hTS] at htrig
  have hcond : max (t.used_size * 2) MIN_BUF_SIZE < t.buffer.length := by
    omega
  have hl := resize_length (s := t) (k := max (t.used_size * 2) MIN_BUF_SIZE)
    h1 h2 (by omega)
  unfold shrink
  dsimp only
  rw [if_pos hcond]
  exact ⟨hl, by rw [hl]; omega, by rw [hl]; omega⟩

end GapBuffer

/-- Claim C6: invariant I1 is preserved by every public operation: starting
from any state produced by `new()` and applying any sequence of `move_cursor`,
`insert`, `delete`, and `backspace` calls, the inequalities
`0 <= cursor <= gap_end <= capacity` hold after each call (any such sequence
is an instance of `ops`, so this covers every intermediate boundary). -/
theorem claim_C6_I1_preserved (c : Nat) (ops : List Op) :
    0 ≤ (run ops (GapBuffer.new c)).cursor ∧
    (run ops (GapBuffer.new c)).cursor ≤ (run ops (GapBuffer.new c)).gap_end ∧
    (run ops (GapBuffer.new c)).gap_end
      ≤ (run ops (GapBuffer.new c)).buffer.length := by
  have h := GapBuffer.inv_run ops (GapBuffer.new c) (GapBuffer.inv_new c)
  exact ⟨Nat.zero_le _, h.1, h.2.1⟩

/-- Witness for claim C6 at a concrete construction and operation sequence. -/
theorem claim_C6_witness :
    (run [Op.del] (GapBuffer.new 0)).cursor
      ≤ (run [Op.del] (GapBuffer.new 0)).gap_end :=
  (claim_C6_I1_preserved 0 [Op.del]).2.1

/-- Claim C4 (amended): after construction `capacity = max(requested,
MIN_BUF_SIZE)`, and `capacity >= MIN_BUF_SIZE` holds at every public-operation
boundary over the buffer's whole lifetime; the stronger bound
`capacity >= requested_initial_capacity` of the original claim is violated by
shrinking (see the counterexample). -/
theorem claim_C4_capacity_floor (c : Nat) (ops : List Op) :
    MIN_BUF_SIZE ≤ (run ops (GapBuffer.new c)).buffer.length ∧
    (GapBuffer.new c).buffer.length = max c MIN_BUF_SIZE := by
  refine ⟨(GapBuffer.inv_run ops (GapBuffer.new c) (GapBuffer.inv_new c)).2.2,
    ?_⟩
  simp [GapBuffer.new]

/-- Witness for the amended claim C4 at a concrete construction and
operation sequence. -/
theorem claim_C4_witness :
    MIN_BUF_SIZE ≤ (run [Op.back] (GapBuffer.new 7)).buffer.length :=
  (claim_C4_capacity_floor 7 [Op.back]).1

/-- Claim C7: for every state satisfying the invariants and every target
capacity `new_size >= used_size`, `resize_buffer` preserves `used_size` and
the logical text, leaves the cursor unchanged, makes the storage exactly
`new_size` slots long, and sets
`gap_end = min(cursor + (new_size - used_size), new_size)`. -/
theorem claim_C7_resize_spec (s : GapBuffer) (k : Nat)
    (h1 : s.cursor ≤ s.gap_end) (h2 : s.gap_end ≤ s.buffer.length)
    (hk : s.used_size ≤ k) :
    (s.resize_buffer k).used_size = s.used_size ∧
    (s.resize_buffer k).extract_text = s.extract_text ∧
    (s.resize_buffer k).cursor = s.cursor ∧
    (s.resize_buffer k).buffer.length = k ∧
    (s.resize_buffer k).gap_end = min (s.cursor + (k - s.used_size)) k ∧
    (s.resize_buffer k).buffer.take s.cursor = s.buffer.take s.cursor ∧
    (s.resize_buffer k).buffer.drop (s.resize_buffer k).gap_end
      = s.buffer.drop s.gap_end :=
  ⟨GapBuffer.resize_used h1 h2 hk, GapBuffer.resize_extract h1 h2 hk,
   GapBuffer.resize_buffer_cursor s k, GapBuffer.resize_length h1 h2 hk,
   GapBuffer.resize_buffer_gap_end s k, GapBuffer.resize_textBefore h1 h2,
   GapBuffer.resize_textAfter h1 h2 hk⟩

/-- Witness for claim C7 at a concrete state and capacity. -/
theorem claim_C7_witness :
    (GapBuffer.resize_buffer ⟨['a', 'b', 'c', 'd'], 1, 3⟩ 8).extract_text
      = GapBuffer.extract_text ⟨['a', 'b', 'c', 'd'], 1, 3⟩ :=
  (claim_C7_resize_spec ⟨['a', 'b', 'c', 'd'], 1, 3⟩ 8 (by decide) (by decide)
    (by decide)).2.1

/-- Claim C9: `insert(c)` produces the old text with `c` inserted at the
cursor, increments the cursor, increases `used_size` by one, and doubles the
capacity exactly when the gap was exhausted (`cursor == gap_end`), leaving it
unchanged otherwise. -/
theorem claim_C9_insert_spec (s : GapBuffer) (c : Char)
    (h1 : s.cursor ≤ s.gap_end) (h2 : s.gap_end ≤ s.buffer.length)
    (h3 : 1 ≤ s.buffer.length) :
    (s.insert c).extract_text
      = s.buffer.take s.cursor ++ c :: s.buffer.drop s.gap_end ∧
    (s.insert c).cursor = s.cursor + 1 ∧
    (s.insert c).used_size = s.used_size + 1 ∧
    (s.insert c).buffer.length
      = (if s.cursor = s.gap_end then s.buffer.length * 2
         else s.buffer.length) := by
  have hu := GapBuffer.used_le_length h1 h2
  have hc := s.cursor_le_used
  unfold GapBuffer.insert
  dsimp only
  by_cases heq : s.cursor = s.gap_end
  · rw [if_pos heq]
    have hk : s.used_size ≤ s.buffer.length * 2 := by omega
    have hl := GapBuffer.grow_buffer_length h1 h2
    have hg2 : s.grow.gap_end = s.cursor + (s.buffer.length * 2 - s.used_size) :=
      GapBuffer.resize_gap_end' hk
    have hcg : s.grow.cursor = s.cursor := rfl
    have h2' : s.grow.gap_end ≤ s.grow.buffer.length := by
      rw [hg2, hl]; omega
    have hlt' : s.grow.cursor < s.grow.gap_end := by
      rw [hcg, hg2]; omega
    refine ⟨?_, ?_, ?_, ?_⟩
    · have hw := GapBuffer.write_extract (t := s.grow) c hlt' h2'
      rw [hw, GapBuffer.grow_textBefore h1 h2, GapBuffer.grow_textAfter h1 h2]
    · dsimp only
      rw [hcg]
    · unfold GapBuffer.used_size
      dsimp only
      simp only [List.length_set]
      rw [hcg, hl, hg2]
      unfold GapBuffer.used_size at *
      omega
    · dsimp only
      simp only [List.length_set]
      rw [hl, if_pos heq]
  · rw [if_neg heq]
    have hlt : s.cursor < s.gap_end := lt_of_le_of_ne h1 heq
    refine ⟨?_, ?_, ?_, ?_⟩
    · exact GapBuffer.write_extract c hlt h2
    · rfl
    · unfold GapBuffer.used_size
      dsimp only
      simp only [List.length_set]
      omega
    · dsimp only
      simp only [List.length_set]
      rw [if_neg heq]

/-- Witness for claim C9 at a concrete state: inserting into `"ac"` with the
cursor after the first character. -/
theorem claim_C9_witness :
    (GapBuffer.insert ⟨['a', 'b', 'c'], 1, 2⟩ 'x').extract_text
      = (⟨['a', 'b', 'c'], 1, 2⟩ : GapBuffer).buffer.take 1
          ++ 'x' :: (⟨['a', 'b', 'c'], 1, 2⟩ : GapBuffer).buffer.drop 2 :=
  (claim_C9_insert_spec ⟨['a', 'b', 'c'], 1, 2⟩ 'x' (by decide) (by decide)
    (by decide)).1

/-- Claim C8 (amended): after a `delete()`, and after a `backspace()` whose
`cursor > 0` guard passes, if the resulting `used_size < capacity/4` and
`capacity > SHRINK_THRESHOLD`, the capacity becomes exactly
`max(used_size * 2, MIN_BUF_SIZE)`, strictly less than the triggering capacity
and never below `MIN_BUF_SIZE`; when the trigger fails the capacity is
unchanged.  A `backspace()` at `cursor == 0` is a complete no-op and never
shrinks, even when the trigger condition holds (see the counterexample to the
original claim). -/
theorem claim_C8_shrink_policy (s : GapBuffer)
    (h1 : s.cursor ≤ s.gap_end) (h2 : s.gap_end ≤ s.buffer.length) :
    ((s.deleteStep.used_size < s.deleteStep.buffer.length / 4 ∧
        SHRINK_THRESHOLD < s.deleteStep.buffer.length) →
      s.delete.buffer.length
          = max (s.deleteStep.used_size * 2) MIN_BUF_SIZE ∧
        s.delete.buffer.length < s.buffer.length ∧
        MIN_BUF_SIZE ≤ s.delete.buffer.length) ∧
    (¬(s.deleteStep.used_size < s.deleteStep.buffer.length / 4 ∧
        SHRINK_THRESHOLD < s.deleteStep.buffer.length) →
      s.delete.buffer.length = s.buffer.length) ∧
    (0 < s.cursor →
      ((s.backspaceStep.used_size < s.backspaceStep.buffer.length / 4 ∧
          SHRINK_THRESHOLD < s.backspaceStep.buffer.length) →
        s.backspace.buffer.length
            = max (s.backspaceStep.used_size * 2) MIN_BUF_SIZE ∧
          s.backspace.buffer.length < s.buffer.length ∧
          MIN_BUF_SIZE ≤ s.backspace.buffer.length) ∧
      (¬(s.backspaceStep.used_size < s.backspaceStep.buffer.length / 4 ∧
          SHRINK_THRESHOLD < s.backspaceStep.buffer.length) →
        s.backspace.buffer.length = s.buffer.length)) ∧
    (s.cursor = 0 → s.backspace = s) := by
  have hdb : s.deleteStep.buffer = s.buffer := GapBuffer.deleteStep_buffer s
  have hds := GapBuffer.deleteStep_bounds h1 h2
  have hbb : s.backspaceStep.buffer = s.buffer := rfl
  have hbs := GapBuffer.backspaceStep_bounds h1 h2
  refine ⟨?_, ?_, ?_, ?_⟩
  · intro htrig
    have hsh := GapBuffer.shrink_length_of_trigger hds.1 hds.2 htrig
    unfold GapBuffer.delete
    dsimp only
    rw [if_pos htrig]
    rw [hdb] at hsh
    exact hsh
  · intro htrig
    unfold GapBuffer.delete
    dsimp only
    rw [if_neg htrig, hdb]
  · intro hcur
    constructor
    · intro htrig
      have hsh := GapBuffer.shrink_length_of_trigger hbs.1 hbs.2 htrig
      unfold GapBuffer.backspace
      dsimp only
      rw [if_pos hcur, if_pos htrig]
      rw [hbb] at hsh
      exact hsh
    · intro htrig
      unfold GapBuffer.backspace
      dsimp only
      rw [if_pos hcur, if_neg htrig, hbb]
  · intro hz
    unfold GapBuffer.backspace
    rw [if_neg (by omega)]

/-- Witness for claim C8 at a concrete state where the trigger fails. -/
theorem claim_C8_witness :
    (GapBuffer.delete ⟨['a'], 1, 1⟩).buffer.length = 1 :=
  (claim_C8_shrink_policy ⟨['a'], 1, 1⟩ (by decide) (by decide)).2.1
    (by decide)

/-- Claim C10 (amended): from any state satisfying I1 that has nonzero
capacity — as every state reachable from `new()` does, its capacity being at
least `MIN_BUF_SIZE` — every public operation performs only in-bounds storage
accesses and underflow-free subtractions: the checked variants, which return
`none` exactly where Rust would panic, agree with the total embedding.  The
nonzero-capacity hypothesis cannot be dropped: see the counterexample. -/
theorem claim_C10_safety (s : GapBuffer) (pos : Nat) (c : Char)
    (h1 : s.cursor ≤ s.gap_end) (h2 : s.gap_end ≤ s.buffer.length)
    (h3 : 1 ≤ s.buffer.length) :
    s.insertChecked c = some (s.insert c) ∧
    s.moveCursorChecked pos = some (s.move_cursor pos) ∧
    s.deleteChecked = some s.delete ∧
    s.backspaceChecked = some s.backspace :=
  ⟨GapBuffer.insertChecked_eq h1 h2 h3 c,
   GapBuffer.moveCursorChecked_eq h1 h2 pos,
   GapBuffer.deleteChecked_eq s, GapBuffer.backspaceChecked_eq s⟩

/-- Counterexample to claim C10 as stated: the empty zero-capacity state
satisfies I1, yet `insert` reaches an out-of-bounds write there (growing a
zero-length buffer is a no-op, after which `storage[0] = c` panics in Rust). -/
theorem claim_C10_cex :
    (⟨[], 0, 0⟩ : GapBuffer).cursor ≤ (⟨[], 0, 0⟩ : GapBuffer).gap_end ∧
    (⟨[], 0, 0⟩ : GapBuffer).gap_end
      ≤ (⟨[], 0, 0⟩ : GapBuffer).buffer.length ∧
    GapBuffer.insertChecked ⟨[], 0, 0⟩ 'x' = none := by
  decide

/-- Witness for claim C10 at a concrete two-character state. -/
theorem claim_C10_witness :
    GapBuffer.insertChecked ⟨['a', 'b'], 1, 2⟩ 'x'
      = some (GapBuffer.insert ⟨['a', 'b'], 1, 2⟩ 'x') :=
  (claim_C10_safety ⟨['a', 'b'], 1, 2⟩ 0 'x' (by decide) (by decide)
    (by decide)).1

/-- Claim C1 is violated by the code: after `new(4)`, inserting `a`, `b`, `c`,
moving the cursor to 0 and inserting `x`, the text reads `xabc`; the following
`move_cursor(4)` then changes `extract_text` to `xbc\0`, because `move_right`
copies the gap region `[cursor, gap_end)` to `[cursor+d, gap_end+d)` instead of
copying `[gap_end, gap_end+d)` into `[cursor, cursor+d)`. -/
theorem claim_C1_cex :
    (run [Op.ins 'a', Op.ins 'b', Op.ins 'c', Op.move 0, Op.ins 'x']
        (GapBuffer.new 4)).extract_text = ['x', 'a', 'b', 'c'] ∧
    ((run [Op.ins 'a', Op.ins 'b', Op.ins 'c', Op.move 0, Op.ins 'x']
        (GapBuffer.new 4)).move_cursor 4).extract_text
      = ['x', 'b', 'c', '\x00'] ∧
    (['x', 'b', 'c', '\x00'] : List Char) ≠ ['x', 'a', 'b', 'c'] := by
  decide

/-- Claim C2 is violated by the code: from text `abc` with the cursor at 1,
`backspace()` yields text `c` with `used_size` 1 — it removes both the
character left of the cursor and the character after the gap (the claim
demands text `bc` and `used_size` 2). -/
theorem claim_C2_cex :
    (run [Op.ins 'a', Op.ins 'b', Op.ins 'c', Op.move 1]
        (GapBuffer.new 4)).extract_text = ['a', 'b', 'c'] ∧
    (run [Op.ins 'a', Op.ins 'b', Op.ins 'c', Op.move 1]
        (GapBuffer.new 4)).cursor = 1 ∧
    (GapBuffer.backspace (run [Op.ins 'a', Op.ins 'b', Op.ins 'c', Op.move 1]
        (GapBuffer.new 4))).extract_text = ['c'] ∧
    GapBuffer.used_size (GapBuffer.backspace
        (run [Op.ins 'a', Op.ins 'b', Op.ins 'c', Op.move 1]
          (GapBuffer.new 4))) = 1 := by
  decide

/-- `new 0` written in the shape `run_replicate_ins` expects. -/
theorem new_zero_eq : GapBuffer.new 0
    = ⟨List.replicate 0 'a' ++ List.replicate 1024 '\x00', 0, 0 + 1024⟩ := rfl

/-- Claim C3 is violated by the code: fill a `new(0)` buffer with 1023
characters, move the cursor to 0 (the gap is now `[0,1)` with 1023 characters
behind it), and call `move_cursor(1023)`.  The clamp gives
`min(1023, used_size) = 1023`, but `move_right`'s guard
`cursor + distance > gap_end` rejects the move, so the cursor stays 0. -/
theorem claim_C3_cex :
    GapBuffer.used_size
        (run (List.replicate 1023 (Op.ins 'a') ++ [Op.move 0])
          (GapBuffer.new 0)) = 1023 ∧
    (GapBuffer.move_cursor
        (run (List.replicate 1023 (Op.ins 'a') ++ [Op.move 0])
          (GapBuffer.new 0)) 1023).cursor = 0 := by
  rw [GapBuffer.run_append, new_zero_eq,
    GapBuffer.run_replicate_ins 'a' 1023 0 1024 (by omega)]
  exact ⟨by decide, by decide⟩

/-- Claim C5 is violated by the code: fill a `new(0)` buffer completely (1024
characters), move the cursor to 1023.  The gap is empty (`cursor == gap_end ==
1023`) and a character lies under the cursor (`cursor < used_size = 1024`),
yet `delete()` changes nothing — its guard `cursor < gap_end` fails — so
`used_size` stays 1024 instead of dropping to 1023. -/
theorem claim_C5_cex :
    (run (List.replicate 1024 (Op.ins 'a') ++ [Op.move 1023])
        (GapBuffer.new 0)).cursor = 1023 ∧
    GapBuffer.used_size
        (run (List.replicate 1024 (Op.ins 'a') ++ [Op.move 1023])
          (GapBuffer.new 0)) = 1024 ∧
    GapBuffer.used_size
        (GapBuffer.delete
          (run (List.replicate 1024 (Op.ins 'a') ++ [Op.move 1023])
            (GapBuffer.new 0))) = 1024 ∧
    (GapBuffer.delete
        (run (List.replicate 1024 (Op.ins 'a') ++ [Op.move 1023])
          (GapBuffer.new 0))).cursor = 1023 := by
  rw [GapBuffer.run_append, new_zero_eq,
    GapBuffer.run_replicate_ins 'a' 1024 0 1024 (by omega)]
  refine ⟨by decide, by decide, by decide, by decide⟩

/-- Claim C4 is violated by the code: one `delete()` on a fresh `new(1040)`
buffer shrinks the capacity to 1024, strictly below
`max(requested_initial_capacity, MIN_BUF_SIZE) = 1040`. -/
theorem claim_C4_cex :
    (GapBuffer.delete (GapBuffer.new 1040)).buffer.length = 1024 ∧
    (GapBuffer.delete (GapBuffer.new 1040)).buffer.length
      < max 1040 MIN_BUF_SIZE := by
  decide

/-- Claim C8 is violated by the code: after `backspace()` on a fresh
`new(1040)` buffer (a no-op, since `cursor == 0`), the resulting
`used_size = 0` is below `capacity/4` and the capacity 1040 exceeds
`SHRINK_THRESHOLD`, yet the capacity stays 1040 instead of being reduced to
`max(used_size * 2, MIN_BUF_SIZE) = 1024`: the shrink check sits inside the
`cursor > 0` branch. -/
theorem claim_C8_cex :
    GapBuffer.used_size (GapBuffer.backspace (GapBuffer.new 1040))
      < (GapBuffer.new 1040).buffer.length / 4 ∧
    SHRINK_THRESHOLD < (GapBuffer.new 1040).buffer.length ∧
    (GapBuffer.backspace (GapBuffer.new 1040)).buffer.length = 1040 ∧
    max (GapBuffer.used_size (GapBuffer.backspace (GapBuffer.new 1040)) * 2)
        MIN_BUF_SIZE = 1024 := by
  decide

end GapRepo
